import Mathlib

/-!
Verification of the AWS-Translate capstone repository against its
specification.  The Python sources are shallowly embedded: the ingestion
Lambda (src/lambda_function/lambda_function.py), the retrieval Lambda
(src/retrieval_function/lambda_function.py) and the client
(src/python_translator.py).  The AWS collaborators (S3, AWS Translate) are
modelled as explicit function parameters; wall-clock timestamps are passed
in as explicit string / number parameters.
-/

/-- Python `not text.strip()`: the string is blank when every character is
whitespace (the empty string included).  This models the blank-skip test
used by both translation loops. -/
def isBlank (s : String) : Bool := s.data.all Char.isWhitespace

/-- One element of the `texts` field of a decoded request.  A JSON item is
either a bare string, a mapping that contains a `text` key (with an
optional integer `id`), or any other value; for the last kind the field
holds the result of Python `str(item)`, which is how the ingestion loop
consumes it. -/
inductive TextItem where
  | strItem (s : String)
  | objItem (oid : Option Nat) (text : String)
  | otherItem (s : String)
deriving DecidableEq

/-- Text extracted from an item by the ingestion loop: `item["text"]` for a
mapping with a `text` key, `str(item)` otherwise. -/
def textOf : TextItem → String
  | .strItem s => s
  | .objItem _ t => t
  | .otherItem s => s

/-- Identifier chosen by the ingestion loop: `item.get("id", k)` for a
mapping with a `text` key, and `k` (the running count of emitted entries)
otherwise. -/
def idOf : TextItem → Nat → Nat
  | .objItem (some i) _, _ => i
  | .objItem none _, k => k
  | .strItem _, k => k
  | .otherItem _, k => k

/-- Whether the item carries its own `id` field. -/
def hasOwnId : TextItem → Bool
  | .objItem (some _) _ => true
  | _ => false

/-- One element of the `translations` array of a result. -/
structure TranslationEntry where
  id : Nat
  original_text : String
  translated_text : String
  character_count : Nat
deriving DecidableEq

/-- The `texts` field of a decoded request body: either a JSON list of
items or some non-list value (the `isinstance(..., list)` check in
`validate_translation_request` distinguishes the two). -/
inductive TextsField where
  | list (items : List TextItem)
  | notAList
deriving DecidableEq

/-- A decoded JSON request body.  Fields are optional because the decoded
object may lack any of them; fields of the original JSON that no code
path reads (timestamp, client_info) are not modelled. -/
structure RawRequest where
  request_id : Option String
  source_language : Option String
  target_language : Option String
  texts : Option TextsField
deriving DecidableEq

/-- The `translation_metadata` object of a result.  The wall-clock
timestamp field is not modelled.  `method` is present only on the
direct-call path. -/
structure TranslationMetadata where
  source_language : String
  target_language : String
  total_texts : Nat
  total_characters : Nat
  processing_status : String
  method : Option String
deriving DecidableEq

/-- A TranslationResult as assembled by either translation path.
`original_request` is populated on the ingestion path only. -/
structure TranslationResult where
  translation_metadata : TranslationMetadata
  translations : List TranslationEntry
  original_request : Option RawRequest
deriving DecidableEq

namespace LambdaFunction

/-- Embedding of `validate_translation_request` from
src/lambda_function/lambda_function.py: the three required fields must be
present, `texts` must be a list, and the list must be non-empty. -/
def validate_translation_request (r : RawRequest) : Bool :=
  match r.source_language, r.target_language, r.texts with
  | none, _, _ => false
  | _, none, _ => false
  | _, _, none => false
  | some _, some _, some .notAList => false
  | some _, some _, some (.list items) => !items.isEmpty

/-- Embedding of the `for text_item in texts` loop of
`process_translation`.  `tr` is the Translation Service Adapter
(`translate_client.translate_text`); an `Except.error` models a raised
exception, which propagates out of the loop.  `acc` is the
`translated_texts` list built so far and `total` the running
`total_characters`; each iteration extracts the text and id, emits a
zero-length entry for blank text without consulting `tr`, and otherwise
calls `tr` and appends a translated entry. -/
def processLoop (tr : String → Except String String) :
    List TextItem → List TranslationEntry → Nat →
    Except String (List TranslationEntry × Nat)
  | [], acc, total => .ok (acc, total)
  | item :: rest, acc, total =>
    let text_to_translate := textOf item
    let text_id := idOf item acc.length
    if isBlank text_to_translate then
      processLoop tr rest
        (acc ++ [{ id := text_id, original_text := text_to_translate,
                   translated_text := "", character_count := 0 }]) total
    else
      match tr text_to_translate with
      | .error e => .error e
      | .ok translated_text =>
        processLoop tr rest
          (acc ++ [{ id := text_id, original_text := text_to_translate,
                     translated_text := translated_text,
                     character_count := text_to_translate.length }])
          (total + text_to_translate.length)

/-- Embedding of `process_translation`: reads the required fields of the
request (a missing field or a non-list `texts` would raise in Python and
is modelled as an error), runs the loop, and assembles the result
record. -/
def process_translation (tr : String → Except String String)
    (req : RawRequest) : Except String TranslationResult :=
  match req.source_language, req.target_language, req.texts with
  | some source_language, some target_language, some (.list texts) =>
    match processLoop tr texts [] 0 with
    | .error e => .error e
    | .ok (translated_texts, total_characters) =>
      .ok { translation_metadata :=
              { source_language := source_language
                target_language := target_language
                total_texts := texts.length
                total_characters := total_characters
                processing_status := "completed"
                method := none }
            translations := translated_texts
            original_request := some req }
  | _, _, _ => .error "KeyError"

end LambdaFunction

/-- Python `str.rfind` restricted to a single character: the index of the
last occurrence of `c` in `cs`, and `-1` when `c` does not occur. -/
def rfindChar : List Char → Char → Int
  | [], _ => -1
  | ch :: rest, c =>
    let r := rfindChar rest c
    if 0 ≤ r then r + 1
    else if ch = c then 0 else -1

/-- Scan of the characters at indices `i ≤ k < j`, true when one of them
differs from a dot.  This models the `while` loop of `posixpath.splitext`
that refuses to split a basename consisting only of leading dots. -/
def hasNonDot (cs : List Char) (i j : Nat) : Bool :=
  ((cs.drop i).take (j - i)).any (fun ch => ch ≠ '.')

/-- Root part of `os.path.splitext` (posix rules, as run inside the
Lambda): take the last `/` and the last `.`; when the dot comes after the
separator and the basename does not consist solely of dots before it, cut
the string at the dot, otherwise return it unchanged. -/
def splitextRoot (p : String) : String :=
  let cs := p.data
  let sepIndex := rfindChar cs '/'
  let dotIndex := rfindChar cs '.'
  if sepIndex < dotIndex ∧
      hasNonDot cs (sepIndex + 1).toNat dotIndex.toNat then
    String.mk (cs.take dotIndex.toNat)
  else p

namespace LambdaFunction

/-- Embedding of `generate_output_key`: strip the extension with
`os.path.splitext`, then append the `_translated_` tag, the
second-resolution timestamp `ts`, and the `.json` extension. -/
def generate_output_key (ts : String) (input_key : String) : String :=
  splitextRoot input_key ++ "_translated_" ++ ts ++ ".json"

/-- One record of the triggering S3 batch event: the (percent-decoded)
object key, together with the outcome of downloading and JSON-decoding
the object body (`Except.error` models a raised exception from
`get_object` / `json.loads`). -/
structure S3Record where
  key : String
  body : Except Unit RawRequest

/-- Effect of the per-record loop body of `lambda_handler`: the list of
(output key, result) objects written to the response bucket, in order.
All per-record exceptions are caught by the inner `except` and the loop
continues; a validation failure is skipped by `continue`; `putOk` models
whether the `put_object` call for a key succeeds (a failed upload raises
and is likewise caught). -/
def processRecords (tr : String → Except String String) (ts : String)
    (putOk : String → Bool) :
    List S3Record → List (String × TranslationResult)
  | [] => []
  | r :: rest =>
    match r.body with
    | .error _ => processRecords tr ts putOk rest
    | .ok req =>
      if validate_translation_request req then
        match process_translation tr req with
        | .error _ => processRecords tr ts putOk rest
        | .ok result =>
          let output_key := generate_output_key ts r.key
          if putOk output_key then
            (output_key, result) :: processRecords tr ts putOk rest
          else
            processRecords tr ts putOk rest
      else processRecords tr ts putOk rest

/-- Outcome of one ingestion invocation: HTTP-style status code plus the
writes performed on the response bucket. -/
structure HandlerOutcome where
  statusCode : Nat
  writes : List (String × TranslationResult)
deriving DecidableEq

/-- Embedding of the ingestion `lambda_handler`.  Reading a missing
`REQUEST_BUCKET` / `RESPONSE_BUCKET` environment variable raises before
the iteration starts and is mapped to 500 by the outer `except`; once the
iteration runs, every record is attempted and the invocation reports
200. -/
def lambda_handler (request_bucket response_bucket : Option String)
    (tr : String → Except String String) (ts : String)
    (putOk : String → Bool) (records : List S3Record) : HandlerOutcome :=
  match request_bucket, response_bucket with
  | some _, some _ =>
    { statusCode := 200, writes := processRecords tr ts putOk records }
  | _, _ => { statusCode := 500, writes := [] }

end LambdaFunction

namespace RetrievalFunction

/-- Outcome of `s3.get_object` on the response bucket: the object body,
the `NoSuchKey` client error, or any other exception (carrying its
message, which the handler must not leak). -/
inductive GetObjectResult where
  | found (body : String)
  | noSuchKey
  | otherError (msg : String)

/-- An API-Gateway style response: status code, the two headers set by
every branch of the handler, and the body. -/
structure HttpResponse where
  statusCode : Nat
  contentType : String
  allowOrigin : String
  body : String
deriving DecidableEq

/-- Body of the 400 response of the retrieval handler. -/
def missingIdBody : String :=
  "\x7b\"message\": \"Error: Missing request_id in path.\"\x7d"

/-- Body of the 404 response of the retrieval handler. -/
def notFoundBody : String :=
  "\x7b\"message\": \"Translation not found or still processing.\"\x7d"

/-- Body of the 500 response of the retrieval handler. -/
def serverErrorBody : String :=
  "\x7b\"message\": \"An internal server error occurred.\"\x7d"

/-- Embedding of the retrieval `lambda_handler`
(src/retrieval_function/lambda_function.py).  `request_id` is the path
parameter (`none` when absent, which raises `KeyError` and yields 400);
`store` models `s3.get_object` against the response bucket. -/
def lambda_handler (request_id : Option String)
    (store : String → GetObjectResult) : HttpResponse :=
  match request_id with
  | none =>
    { statusCode := 400, contentType := "application/json",
      allowOrigin := "*", body := missingIdBody }
  | some rid =>
    match store rid with
    | .found file_content =>
      { statusCode := 200, contentType := "application/json",
        allowOrigin := "*", body := file_content }
    | .noSuchKey =>
      { statusCode := 404, contentType := "application/json",
        allowOrigin := "*", body := notFoundBody }
    | .otherError _ =>
      { statusCode := 500, contentType := "application/json",
        allowOrigin := "*", body := serverErrorBody }

end RetrievalFunction

namespace PythonTranslator

/-- Embedding of the `for i, text in enumerate(texts)` loop of
`create_translation_request` in src/python_translator.py: each bare
string becomes a structured item carrying its 0-based position as id. -/
def structuredTexts : Nat → List String → List TextItem
  | _, [] => []
  | i, text :: rest => .objItem (some i) text :: structuredTexts (i + 1) rest

/-- Embedding of `create_translation_request` (with the request id already
resolved; when the caller passes none the code generates one from the
current time, which is a wall-clock effect outside the model).  Fields of
the built dictionary that no code path reads (timestamp, client_info) are
not modelled. -/
def create_translation_request (texts : List String)
    (source_language target_language request_id : String) : RawRequest :=
  { request_id := some request_id
    source_language := some source_language
    target_language := some target_language
    texts := some (.list (structuredTexts 0 texts)) }

/-- Key under which `submit_translation_request` uploads the request:
`f"translation_request_\x7brequest_id\x7d.json"`. -/
def submitKey (request_id : String) : String :=
  "translation_request_" ++ request_id ++ ".json"

/-- Listing filter used by `wait_for_translation_result`: the code lists
the response bucket under
`f"translation_request_\x7brequest_id\x7d_translated"`. -/
def resultKeyStart (request_id : String) : String :=
  "translation_request_" ++ request_id ++ "_translated"

/-- Embedding of the `for i, text in enumerate(texts)` loop of
`translate_direct`: `acc` is the `translated_texts` list and `total` the
running `total_characters`; a raised adapter exception (`Except.error`)
aborts the whole loop, discarding the accumulated entries. -/
def translateDirectLoop (tr : String → Except String String) :
    List String → Nat → List TranslationEntry → Nat →
    Except String (List TranslationEntry × Nat)
  | [], _, acc, total => .ok (acc, total)
  | text :: rest, i, acc, total =>
    if isBlank text then
      translateDirectLoop tr rest (i + 1)
        (acc ++ [{ id := i, original_text := text,
                   translated_text := "", character_count := 0 }]) total
    else
      match tr text with
      | .error e => .error e
      | .ok translated_text =>
        translateDirectLoop tr rest (i + 1)
          (acc ++ [{ id := i, original_text := text,
                     translated_text := translated_text,
                     character_count := text.length }])
          (total + text.length)

/-- Embedding of `translate_direct`: run the loop and assemble the result,
tagging the metadata with `method = "direct"`; an adapter failure
propagates to the caller. -/
def translate_direct (tr : String → Except String String)
    (texts : List String) (source_language target_language : String) :
    Except String TranslationResult :=
  match translateDirectLoop tr texts 0 [] 0 with
  | .error e => .error e
  | .ok (translated_texts, total_characters) =>
    .ok { translation_metadata :=
            { source_language := source_language
              target_language := target_language
              total_texts := texts.length
              total_characters := total_characters
              processing_status := "completed"
              method := some "direct" }
          translations := translated_texts
          original_request := none }

/-- Python `max(contents, key=lambda x: x["LastModified"])` over a
non-empty list, given as head plus tail: keeps the current maximum unless
a strictly larger last-modified value appears. -/
def maxByLastModified : (String × Nat) → List (String × Nat) → String × Nat
  | best, [] => best
  | best, x :: rest =>
    maxByLastModified (if best.2 < x.2 then x else best) rest

/-- Polling loop of `wait_for_translation_result`.  The store is modelled
by `listing t`, the full contents of the response bucket (key and
last-modified stamp) at clock time `t`; `list_objects_v2` with a prefix
returns exactly the keys starting with that prefix, hence the filter.
`fetch` models `get_translation_result` (download and parse).  Each
unsuccessful poll sleeps `poll_interval` seconds, advancing the clock;
the loop exits with `none` once `timeout` is reached.  The positivity
proof `hp` reflects that sleeping advances real time, which is what makes
the Python loop reach its deadline. -/
def waitLoop {α : Type} (listing : Nat → List (String × Nat))
    (fetch : String → α) (request_id : String)
    (timeout poll_interval : Nat) (hp : 0 < poll_interval)
    (t : Nat) : Option α :=
  if _h : t < timeout then
    match (listing t).filter
        (fun kv => (resultKeyStart request_id).data.isPrefixOf kv.1.data) with
    | [] =>
      waitLoop listing fetch request_id timeout poll_interval hp
        (t + poll_interval)
    | c :: cs => some (fetch (maxByLastModified c cs).1)
  else none
termination_by timeout - t
decreasing_by omega

/-- Embedding of `wait_for_translation_result`: run the polling loop from
clock time 0; `none` is the timeout indication. -/
def wait_for_translation_result {α : Type}
    (listing : Nat → List (String × Nat)) (fetch : String → α)
    (request_id : String) (timeout poll_interval : Nat)
    (hp : 0 < poll_interval) : Option α :=
  waitLoop listing fetch request_id timeout poll_interval hp 0

end PythonTranslator

/-- Entry that the ingestion loop emits for the item `it` when the running
entry count is `k` and the adapter behaves as the pure function `tr'`. -/
def expectedEntry (tr' : String → String) (k : Nat) (it : TextItem) :
    TranslationEntry :=
  if isBlank (textOf it) then
    { id := idOf it k, original_text := textOf it,
      translated_text := "", character_count := 0 }
  else
    { id := idOf it k, original_text := textOf it,
      translated_text := tr' (textOf it),
      character_count := (textOf it).length }

/-- Entries emitted for a list of items, starting from entry count `k`. -/
def expectedEntries (tr' : String → String) :
    Nat → List TextItem → List TranslationEntry
  | _, [] => []
  | k, it :: rest =>
    expectedEntry tr' k it :: expectedEntries tr' (k + 1) rest

/-- Character total accumulated by the loops: the untrimmed length of each
non-blank text, blanks contributing zero. -/
def charSum : List TextItem → Nat
  | [] => 0
  | it :: rest =>
    (if isBlank (textOf it) then 0 else (textOf it).length) + charSum rest

theorem expectedEntries_length (tr' : String → String) :
    ∀ (k : Nat) (items : List TextItem),
    (expectedEntries tr' k items).length = items.length
  | _, [] => rfl
  | k, _ :: rest => by
    simp [expectedEntries, expectedEntries_length tr' (k + 1) rest]

theorem expectedEntries_getElem? (tr' : String → String) :
    ∀ (items : List TextItem) (k j : Nat),
    (expectedEntries tr' k items)[j]? =
      (items[j]?).map (expectedEntry tr' (k + j)) := by
  intro items
  induction items with
  | nil => intro k j; simp [expectedEntries]
  | cons it rest ih =>
    intro k j
    cases j with
    | zero => simp [expectedEntries]
    | succ j =>
      simp only [expectedEntries, List.getElem?_cons_succ, ih (k + 1) j]
      have : k + 1 + j = k + (j + 1) := by omega
      rw [this]

theorem expectedEntries_map_original (tr' : String → String) :
    ∀ (k : Nat) (items : List TextItem),
    (expectedEntries tr' k items).map (fun e => e.original_text) =
      items.map textOf := by
  intro k items
  induction items generalizing k with
  | nil => rfl
  | cons it rest ih =>
    simp only [expectedEntries, List.map_cons, ih (k + 1)]
    congr 1
    unfold expectedEntry
    split <;> rfl

theorem expectedEntries_translated_ne (tr' : String → String)
    (items : List TextItem)
    (hnb : ∀ it ∈ items, isBlank (textOf it) = false)
    (hne : ∀ it ∈ items, tr' (textOf it) ≠ "") :
    ∀ (k : Nat), ∀ e ∈ expectedEntries tr' k items,
      e.translated_text ≠ "" := by
  induction items with
  | nil => intro k e he; simp [expectedEntries] at he
  | cons it rest ih =>
    intro k e he
    rw [expectedEntries] at he
    rcases List.mem_cons.mp he with h | h
    · subst h
      unfold expectedEntry
      rw [hnb it (List.mem_cons_self it rest)]
      simpa using hne it (List.mem_cons_self it rest)
    · exact ih (fun x hx => hnb x (List.mem_cons_of_mem _ hx))
        (fun x hx => hne x (List.mem_cons_of_mem _ hx)) (k + 1) e h

theorem charSum_all_nonblank (items : List TextItem)
    (hnb : ∀ it ∈ items, isBlank (textOf it) = false) :
    charSum items = (items.map (fun it => (textOf it).length)).sum := by
  induction items with
  | nil => rfl
  | cons it rest ih =>
    rw [charSum, hnb it (List.mem_cons_self it rest)]
    simp [ih (fun x hx => hnb x (List.mem_cons_of_mem _ hx))]

theorem processLoop_eq_expected (tr : String → Except String String)
    (tr' : String → String) :
    ∀ (items : List TextItem) (acc : List TranslationEntry) (total : Nat),
    (∀ it ∈ items, isBlank (textOf it) = false →
      tr (textOf it) = .ok (tr' (textOf it))) →
    LambdaFunction.processLoop tr items acc total =
      .ok (acc ++ expectedEntries tr' acc.length items,
           total + charSum items) := by
  intro items
  induction items with
  | nil =>
    intro acc total _
    simp [LambdaFunction.processLoop, expectedEntries, charSum]
  | cons it rest ih =>
    intro acc total htr
    have hrest : ∀ x ∈ rest, isBlank (textOf x) = false →
        tr (textOf x) = .ok (tr' (textOf x)) :=
      fun x hx => htr x (List.mem_cons_of_mem _ hx)
    rw [LambdaFunction.processLoop]
    by_cases hb : isBlank (textOf it)
    · rw [if_pos hb, ih _ _ hrest]
      rw [expectedEntries, charSum, hb]
      simp [expectedEntry, hb]
    · rw [if_neg hb,
        htr it (List.mem_cons_self it rest) (Bool.not_eq_true _ ▸ hb)]
      show LambdaFunction.processLoop tr rest
          (acc ++ [{ id := idOf it acc.length, original_text := textOf it,
                     translated_text := tr' (textOf it),
                     character_count := (textOf it).length }])
          (total + (textOf it).length) = _
      rw [ih _ _ hrest]
      rw [expectedEntries, charSum]
      simp only [Bool.not_eq_true] at hb
      rw [hb]
      simp [expectedEntry, hb, Nat.add_assoc]

theorem processLoop_abort (tr : String → Except String String)
    (e : String) :
    ∀ (pre : List TextItem) (it : TextItem) (post : List TextItem)
      (acc : List TranslationEntry) (total : Nat),
    (∀ p ∈ pre, isBlank (textOf p) = true ∨ ∃ u, tr (textOf p) = .ok u) →
    isBlank (textOf it) = false → tr (textOf it) = .error e →
    LambdaFunction.processLoop tr (pre ++ it :: post) acc total =
      .error e := by
  intro pre
  induction pre with
  | nil =>
    intro it post acc total _ hb herr
    rw [List.nil_append, LambdaFunction.processLoop, if_neg (by simp [hb]),
      herr]
  | cons p rest ih =>
    intro it post acc total hpre hb herr
    have hp := hpre p (List.mem_cons_self p rest)
    have hrest : ∀ x ∈ rest,
        isBlank (textOf x) = true ∨ ∃ u, tr (textOf x) = .ok u :=
      fun x hx => hpre x (List.mem_cons_of_mem _ hx)
    rw [List.cons_append, LambdaFunction.processLoop]
    rcases hp with hpb | ⟨u, hu⟩
    · rw [if_pos hpb]
      exact ih it post _ _ hrest hb herr
    · by_cases hpb : isBlank (textOf p)
      · rw [if_pos hpb]
        exact ih it post _ _ hrest hb herr
      · rw [if_neg hpb, hu]
        exact ih it post _ _ hrest hb herr

theorem processLoop_congr (tr₁ tr₂ : String → Except String String)
    (hag : ∀ s, isBlank s = false → tr₁ s = tr₂ s) :
    ∀ (items : List TextItem) (acc : List TranslationEntry) (total : Nat),
    LambdaFunction.processLoop tr₁ items acc total =
      LambdaFunction.processLoop tr₂ items acc total := by
  intro items
  induction items with
  | nil => intro acc total; rfl
  | cons it rest ih =>
    intro acc total
    rw [LambdaFunction.processLoop, LambdaFunction.processLoop]
    by_cases hb : isBlank (textOf it)
    · rw [if_pos hb, if_pos hb, ih]
    · rw [if_neg hb, if_neg hb,
        hag (textOf it) (Bool.not_eq_true _ ▸ hb)]
      cases tr₂ (textOf it) with
      | error e => rfl
      | ok u => exact ih _ _

theorem processLoop_ok_adapter (tr : String → Except String String) :
    ∀ (items : List TextItem) (acc : List TranslationEntry) (total : Nat)
      (out : List TranslationEntry × Nat),
    LambdaFunction.processLoop tr items acc total = .ok out →
    ∀ it ∈ items, isBlank (textOf it) = false →
      ∃ u, tr (textOf it) = .ok u := by
  intro items
  induction items with
  | nil => intro acc total out _ it hit; simp at hit
  | cons hd rest ih =>
    intro acc total out hok it hit
    rw [LambdaFunction.processLoop] at hok
    intro hb
    by_cases hdb : isBlank (textOf hd)
    · rw [if_pos hdb] at hok
      rcases List.mem_cons.mp hit with h | h
      · subst h; rw [hdb] at hb; cases hb
      · exact ih _ _ _ hok it h hb
    · rw [if_neg hdb] at hok
      cases htr : tr (textOf hd) with
      | error e => rw [htr] at hok; cases hok
      | ok u =>
        rw [htr] at hok
        rcases List.mem_cons.mp hit with h | h
        · subst h; exact ⟨u, htr⟩
        · exact ih _ _ _ hok it h hb

theorem translateDirectLoop_eq_processLoop
    (tr : String → Except String String) :
    ∀ (texts : List String) (acc : List TranslationEntry) (total : Nat),
    PythonTranslator.translateDirectLoop tr texts acc.length acc total =
      LambdaFunction.processLoop tr (texts.map TextItem.strItem) acc
        total := by
  intro texts
  induction texts with
  | nil => intro acc total; rfl
  | cons t rest ih =>
    intro acc total
    rw [List.map_cons, PythonTranslator.translateDirectLoop,
      LambdaFunction.processLoop]
    simp only [textOf, idOf]
    by_cases hb : isBlank t
    · rw [if_pos hb, if_pos hb]
      have h1 : acc.length + 1 =
          (acc ++ [({ id := acc.length, original_text := t,
                      translated_text := "",
                      character_count := 0 } : TranslationEntry)]).length := by
        simp
      rw [h1, ih]
    · rw [if_neg hb, if_neg hb]
      cases htr : tr t with
      | error e => rfl
      | ok u =>
        show PythonTranslator.translateDirectLoop tr rest (acc.length + 1)
            (acc ++ [{ id := acc.length, original_text := t,
                       translated_text := u,
                       character_count := t.length }])
            (total + t.length) =
          LambdaFunction.processLoop tr (List.map TextItem.strItem rest)
            (acc ++ [{ id := acc.length, original_text := t,
                       translated_text := u,
                       character_count := t.length }])
            (total + t.length)
        have h1 : acc.length + 1 =
            (acc ++ [({ id := acc.length, original_text := t,
                        translated_text := u,
                        character_count := t.length } :
                      TranslationEntry)]).length := by
          simp
        rw [h1, ih]

/-- Writes performed for a single record by the body of the ingestion
batch loop. -/
def recordWrites (tr : String → Except String String) (ts : String)
    (putOk : String → Bool) (r : LambdaFunction.S3Record) :
    List (String × TranslationResult) :=
  match r.body with
  | .error _ => []
  | .ok req =>
    if LambdaFunction.validate_translation_request req then
      match LambdaFunction.process_translation tr req with
      | .error _ => []
      | .ok result =>
        let output_key := LambdaFunction.generate_output_key ts r.key
        if putOk output_key then [(output_key, result)] else []
    else []

theorem processRecords_cons (tr : String → Except String String)
    (ts : String) (putOk : String → Bool) (r : LambdaFunction.S3Record)
    (l : List LambdaFunction.S3Record) :
    LambdaFunction.processRecords tr ts putOk (r :: l) =
      recordWrites tr ts putOk r ++
        LambdaFunction.processRecords tr ts putOk l := by
  obtain ⟨key, body⟩ := r
  rw [LambdaFunction.processRecords, recordWrites]
  cases body with
  | error e => rfl
  | ok req =>
    dsimp only
    by_cases hv : LambdaFunction.validate_translation_request req
    · rw [if_pos hv, if_pos hv]
      cases LambdaFunction.process_translation tr req with
      | error e => rfl
      | ok result =>
        dsimp only
        by_cases hp : putOk (LambdaFunction.generate_output_key ts key)
        · rw [if_pos hp, if_pos hp]
          rfl
        · rw [if_neg hp, if_neg hp]
          simp
    · rw [if_neg hv, if_neg hv]
      simp

theorem processRecords_append (tr : String → Except String String)
    (ts : String) (putOk : String → Bool) :
    ∀ (a b : List LambdaFunction.S3Record),
    LambdaFunction.processRecords tr ts putOk (a ++ b) =
      LambdaFunction.processRecords tr ts putOk a ++
        LambdaFunction.processRecords tr ts putOk b := by
  intro a b
  induction a with
  | nil => rfl
  | cons r l ih =>
    rw [List.cons_append, processRecords_cons, processRecords_cons, ih,
      List.append_assoc]

theorem structuredTexts_length :
    ∀ (i : Nat) (texts : List String),
    (PythonTranslator.structuredTexts i texts).length = texts.length
  | _, [] => rfl
  | i, _ :: rest => by
    simp [PythonTranslator.structuredTexts,
      structuredTexts_length (i + 1) rest]

theorem structuredTexts_getElem? :
    ∀ (texts : List String) (i j : Nat),
    (PythonTranslator.structuredTexts i texts)[j]? =
      (texts[j]?).map (fun t => TextItem.objItem (some (i + j)) t) := by
  intro texts
  induction texts with
  | nil => intro i j; simp [PythonTranslator.structuredTexts]
  | cons t rest ih =>
    intro i j
    cases j with
    | zero => simp [PythonTranslator.structuredTexts]
    | succ j =>
      simp only [PythonTranslator.structuredTexts,
        List.getElem?_cons_succ, ih (i + 1) j]
      have : i + 1 + j = i + (j + 1) := by omega
      rw [this]

/-- C4: for every incoming object whose decoded body is missing
source_language, target_language, or texts, or whose texts is an empty
sequence, the ingestion handler judges the request invalid, writes no
result object for that object, does not raise, and continues with the
remaining objects of the batch. -/
theorem claim_C4 :
    (∀ r : RawRequest,
      r.source_language = none ∨ r.target_language = none ∨
        r.texts = none ∨ r.texts = some (.list []) →
      LambdaFunction.validate_translation_request r = false) ∧
    (∀ (tr : String → Except String String) (ts : String)
       (putOk : String → Bool) (key : String) (req : RawRequest)
       (pre rest : List LambdaFunction.S3Record),
      LambdaFunction.validate_translation_request req = false →
      LambdaFunction.processRecords tr ts putOk
          (pre ++ { key := key, body := .ok req } :: rest) =
        LambdaFunction.processRecords tr ts putOk (pre ++ rest)) ∧
    (∀ (request_bucket response_bucket : String)
       (tr : String → Except String String) (ts : String)
       (putOk : String → Bool)
       (records : List LambdaFunction.S3Record),
      (LambdaFunction.lambda_handler (some request_bucket)
          (some response_bucket) tr ts putOk records).statusCode = 200) := by
  refine ⟨?_, ?_, ?_⟩
  · intro r h
    obtain ⟨rid, sl, tl, tx⟩ := r
    simp only at h
    rcases sl with _ | sl
    · cases tl <;> rcases tx with _ | tf <;> rfl
    · rcases tl with _ | tl
      · rcases tx with _ | tf
        · rfl
        · cases tf <;> rfl
      · rcases tx with _ | tf
        · rfl
        · cases tf with
          | notAList => rfl
          | list items =>
            rcases h with h | h | h | h
            · exact absurd h (by simp)
            · exact absurd h (by simp)
            · exact absurd h (by simp)
            · simp only [Option.some.injEq, TextsField.list.injEq] at h
              subst h
              rfl
  · intro tr ts putOk key req pre rest hval
    rw [show pre ++ { key := key, body := .ok req } :: rest =
          pre ++ [{ key := key,
                    body := .ok req }] ++ rest from by simp,
      processRecords_append, processRecords_append,
      processRecords_append, processRecords_cons]
    have hw : recordWrites tr ts putOk { key := key, body := .ok req } =
        [] := by
      rw [recordWrites]
      simp [hval]
    rw [hw]
    simp [LambdaFunction.processRecords]
  · intro request_bucket response_bucket tr ts putOk records
    rfl

/-- Witness for C4 at a concrete batch: a request missing target_language
is judged invalid, and the batch containing it produces the same writes
as the batch without it. -/
theorem claim_C4_witness :
    LambdaFunction.validate_translation_request
      { request_id := some "r1", source_language := some "en",
        target_language := none,
        texts := some (.list [.strItem "hi"]) } = false ∧
    LambdaFunction.processRecords (fun s => .ok s) "20250101_000000"
        (fun _ => true)
        ([] ++ { key := "translation_request_r1.json",
                 body := .ok { request_id := some "r1",
                               source_language := some "en",
                               target_language := none,
                               texts := some (.list [.strItem "hi"]) } } ::
          [{ key := "k2", body := .error () }]) =
      LambdaFunction.processRecords (fun s => .ok s) "20250101_000000"
        (fun _ => true) ([] ++ [{ key := "k2", body := .error () }]) :=
  ⟨claim_C4.1 _ (Or.inr (Or.inl rfl)),
   claim_C4.2.1 _ _ _ _ _ [] [{ key := "k2", body := .error () }] rfl⟩

/-- C5: the ingestion handler reports 200 once every object of the batch
has been attempted, however many records were skipped or failed, and
reports 500 exactly when the bucket configuration is missing, an error
that occurs before the iteration begins. -/
theorem claim_C5 :
    (∀ (request_bucket response_bucket : String)
       (tr : String → Except String String) (ts : String)
       (putOk : String → Bool)
       (records : List LambdaFunction.S3Record),
      (LambdaFunction.lambda_handler (some request_bucket)
          (some response_bucket) tr ts putOk records).statusCode = 200) ∧
    (∀ (request_bucket response_bucket : Option String)
       (tr : String → Except String String) (ts : String)
       (putOk : String → Bool)
       (records : List LambdaFunction.S3Record),
      request_bucket = none ∨ response_bucket = none →
      (LambdaFunction.lambda_handler request_bucket response_bucket
          tr ts putOk records).statusCode = 500) := by
  refine ⟨fun _ _ _ _ _ _ => rfl, ?_⟩
  intro request_bucket response_bucket tr ts putOk records h
  rcases h with h | h
  · subst h; rfl
  · subst h
    cases request_bucket with
    | none => rfl
    | some b => rfl

/-- Witness for C5: a batch with one fetch failure and one invalid record
still reports 200, and a missing response bucket reports 500. -/
theorem claim_C5_witness :
    (LambdaFunction.lambda_handler (some "req-bucket") (some "resp-bucket")
        (fun s => .ok s) "20250101_000000" (fun _ => true)
        [{ key := "a.json", body := .error () },
         { key := "b.json",
           body := .ok { request_id := none, source_language := none,
                         target_language := none,
                         texts := none } }]).statusCode = 200 ∧
    (LambdaFunction.lambda_handler (some "req-bucket") none
        (fun s => .ok s) "20250101_000000" (fun _ => true)
        []).statusCode = 500 :=
  ⟨claim_C5.1 _ _ _ _ _ _, claim_C5.2 _ _ _ _ _ _ (Or.inr rfl)⟩

/-- C6: the retrieval handler returns 200 with the stored body verbatim
when the object exists, 400 when request_id is missing from the path
parameters, 404 when no object exists at the key, 500 on any other
failure with a fixed generic body that does not depend on the internal
error, and every response carries Content-Type application/json and the
permissive cross-origin header. -/
theorem claim_C6 :
    (∀ store : String → RetrievalFunction.GetObjectResult,
      RetrievalFunction.lambda_handler none store =
        { statusCode := 400, contentType := "application/json",
          allowOrigin := "*", body := RetrievalFunction.missingIdBody }) ∧
    (∀ (store : String → RetrievalFunction.GetObjectResult)
       (rid body : String), store rid = .found body →
      RetrievalFunction.lambda_handler (some rid) store =
        { statusCode := 200, contentType := "application/json",
          allowOrigin := "*", body := body }) ∧
    (∀ (store : String → RetrievalFunction.GetObjectResult)
       (rid : String), store rid = .noSuchKey →
      RetrievalFunction.lambda_handler (some rid) store =
        { statusCode := 404, contentType := "application/json",
          allowOrigin := "*", body := RetrievalFunction.notFoundBody }) ∧
    (∀ (store : String → RetrievalFunction.GetObjectResult)
       (rid msg : String), store rid = .otherError msg →
      RetrievalFunction.lambda_handler (some rid) store =
        { statusCode := 500, contentType := "application/json",
          allowOrigin := "*",
          body := RetrievalFunction.serverErrorBody }) ∧
    (∀ (request_id : Option String)
       (store : String → RetrievalFunction.GetObjectResult),
      (RetrievalFunction.lambda_handler request_id store).contentType =
          "application/json" ∧
        (RetrievalFunction.lambda_handler request_id store).allowOrigin =
          "*") := by
  refine ⟨fun _ => rfl, ?_, ?_, ?_, ?_⟩
  · intro store rid body h
    rw [RetrievalFunction.lambda_handler, h]
  · intro store rid h
    rw [RetrievalFunction.lambda_handler, h]
  · intro store rid msg h
    rw [RetrievalFunction.lambda_handler, h]
  · intro request_id store
    cases request_id with
    | none => exact ⟨rfl, rfl⟩
    | some rid =>
      rw [RetrievalFunction.lambda_handler]
      cases store rid <;> exact ⟨rfl, rfl⟩

/-- Witness for C6: the four branches at concrete stores. -/
theorem claim_C6_witness :
    RetrievalFunction.lambda_handler (some "req-1.json")
        (fun _ => .found "\x7b\"translations\": []\x7d") =
      { statusCode := 200, contentType := "application/json",
        allowOrigin := "*", body := "\x7b\"translations\": []\x7d" } ∧
    RetrievalFunction.lambda_handler (some "req-1.json")
        (fun _ => .noSuchKey) =
      { statusCode := 404, contentType := "application/json",
        allowOrigin := "*", body := RetrievalFunction.notFoundBody } ∧
    RetrievalFunction.lambda_handler (some "req-1.json")
        (fun _ => .otherError "connection reset") =
      { statusCode := 500, contentType := "application/json",
        allowOrigin := "*", body := RetrievalFunction.serverErrorBody } :=
  ⟨claim_C6.2.1 _ "req-1.json" _ rfl,
   claim_C6.2.2.1 _ "req-1.json" rfl,
   claim_C6.2.2.2.1 _ "req-1.json" "connection reset" rfl⟩

theorem idOf_eq_of_not_own (it : TextItem) (k : Nat)
    (h : hasOwnId it = false) : idOf it k = k := by
  cases it with
  | strItem s => rfl
  | otherItem s => rfl
  | objItem oid t =>
    cases oid with
    | none => rfl
    | some i => simp [hasOwnId] at h

theorem expectedEntry_id (tr' : String → String) (k : Nat)
    (it : TextItem) : (expectedEntry tr' k it).id = idOf it k := by
  unfold expectedEntry
  split <;> rfl

/-- Success characterization of `process_translation` on a well-shaped
request: when the adapter succeeds on every non-blank item text, the
result is fully determined. -/
theorem process_translation_eq_expected
    (tr : String → Except String String) (tr' : String → String)
    (rid src tgt : String) (items : List TextItem)
    (htr : ∀ it ∈ items, isBlank (textOf it) = false →
      tr (textOf it) = .ok (tr' (textOf it))) :
    LambdaFunction.process_translation tr
        { request_id := some rid, source_language := some src,
          target_language := some tgt, texts := some (.list items) } =
      .ok { translation_metadata :=
              { source_language := src, target_language := tgt,
                total_texts := items.length,
                total_characters := charSum items,
                processing_status := "completed", method := none },
            translations := expectedEntries tr' 0 items,
            original_request :=
              some { request_id := some rid, source_language := some src,
                     target_language := some tgt,
                     texts := some (.list items) } } := by
  rw [LambdaFunction.process_translation]
  dsimp only
  rw [processLoop_eq_expected tr tr' items [] 0 htr]
  dsimp only
  simp

/-- Inverse direction: whatever adapter behaviour produced a successful
`process_translation` run, the run agrees with the canonical one for the
pure function obtained by reading off the successful adapter answers. -/
theorem process_translation_ok_shape
    (tr : String → Except String String) (rid src tgt : String)
    (items : List TextItem) (res : TranslationResult)
    (hok : LambdaFunction.process_translation tr
        { request_id := some rid, source_language := some src,
          target_language := some tgt, texts := some (.list items) } =
      .ok res) :
    ∃ tr' : String → String,
      (∀ it ∈ items, isBlank (textOf it) = false →
        tr (textOf it) = .ok (tr' (textOf it))) ∧
      res = { translation_metadata :=
                { source_language := src, target_language := tgt,
                  total_texts := items.length,
                  total_characters := charSum items,
                  processing_status := "completed", method := none },
              translations := expectedEntries tr' 0 items,
              original_request :=
                some { request_id := some rid,
                       source_language := some src,
                       target_language := some tgt,
                       texts := some (.list items) } } := by
  have hloop : ∃ out, LambdaFunction.processLoop tr items [] 0 =
      .ok out := by
    rw [LambdaFunction.process_translation] at hok
    dsimp only at hok
    cases hl : LambdaFunction.processLoop tr items [] 0 with
    | error e => rw [hl] at hok; cases hok
    | ok out => exact ⟨out, rfl⟩
  obtain ⟨out, hl⟩ := hloop
  have hadapt := processLoop_ok_adapter tr items [] 0 out hl
  refine ⟨fun s => match tr s with | .ok u => u | .error _ => "", ?_, ?_⟩
  · intro it hit hb
    obtain ⟨u, hu⟩ := hadapt it hit hb
    simp only [hu]
  · have h2 := process_translation_eq_expected tr
      (fun s => match tr s with | .ok u => u | .error _ => "")
      rid src tgt items (by
        intro it hit hb
        obtain ⟨u, hu⟩ := hadapt it hit hb
        simp only [hu])
    rw [hok] at h2
    injection h2

/-- Success characterization of `translate_direct`: when the adapter
succeeds on every non-blank text, the result is fully determined (and in
particular carries the `direct` method tag). -/
theorem translate_direct_eq_expected
    (tr : String → Except String String) (tr' : String → String)
    (texts : List String) (src tgt : String)
    (htr : ∀ t ∈ texts, isBlank t = false → tr t = .ok (tr' t)) :
    PythonTranslator.translate_direct tr texts src tgt =
      .ok { translation_metadata :=
              { source_language := src, target_language := tgt,
                total_texts := texts.length,
                total_characters := charSum (texts.map TextItem.strItem),
                processing_status := "completed",
                method := some "direct" },
            translations :=
              expectedEntries tr' 0 (texts.map TextItem.strItem),
            original_request := none } := by
  rw [PythonTranslator.translate_direct]
  have e1 := translateDirectLoop_eq_processLoop tr texts [] 0
  simp only [List.length_nil] at e1
  rw [e1, processLoop_eq_expected tr tr' (texts.map TextItem.strItem) [] 0
    (by
      intro it hit hb
      obtain ⟨t, ht, rfl⟩ := List.mem_map.mp hit
      exact htr t ht hb)]
  dsimp only
  simp

theorem translate_direct_ok_shape
    (tr : String → Except String String) (texts : List String)
    (src tgt : String) (res : TranslationResult)
    (hok : PythonTranslator.translate_direct tr texts src tgt =
      .ok res) :
    ∃ tr' : String → String,
      (∀ t ∈ texts, isBlank t = false → tr t = .ok (tr' t)) ∧
      res = { translation_metadata :=
                { source_language := src, target_language := tgt,
                  total_texts := texts.length,
                  total_characters :=
                    charSum (texts.map TextItem.strItem),
                  processing_status := "completed",
                  method := some "direct" },
              translations :=
                expectedEntries tr' 0 (texts.map TextItem.strItem),
              original_request := none } := by
  have hloop : ∃ out, PythonTranslator.translateDirectLoop tr texts 0 [] 0 =
      .ok out := by
    rw [PythonTranslator.translate_direct] at hok
    cases hl : PythonTranslator.translateDirectLoop tr texts 0 [] 0 with
    | error e => rw [hl] at hok; cases hok
    | ok out => exact ⟨out, rfl⟩
  obtain ⟨out, hl⟩ := hloop
  have e1 := translateDirectLoop_eq_processLoop tr texts [] 0
  simp only [List.length_nil] at e1
  rw [e1] at hl
  have hadapt := processLoop_ok_adapter tr (texts.map TextItem.strItem)
    [] 0 out hl
  have htr : ∀ t ∈ texts, isBlank t = false →
      tr t = .ok ((fun s => match tr s with
        | .ok u => u | .error _ => "") t) := by
    intro t ht hb
    obtain ⟨u, hu⟩ := hadapt (TextItem.strItem t)
      (List.mem_map.mpr ⟨t, ht, rfl⟩) hb
    simp only [textOf] at hu
    simp only [hu]
  refine ⟨_, htr, ?_⟩
  have h2 := translate_direct_eq_expected tr _ texts src tgt htr
  rw [hok] at h2
  injection h2

/-- C2: for every valid request whose N text items are all non-blank,
given an adapter that answers every non-blank text with a non-empty
translation, the ingestion translation step yields exactly N entries in
input order, each with non-empty translated_text, and total_characters
equal to the sum of the untrimmed original-text lengths. -/
theorem claim_C2 (tr : String → Except String String)
    (tr' : String → String) (rid src tgt : String)
    (items : List TextItem)
    (_hval : LambdaFunction.validate_translation_request
      { request_id := some rid, source_language := some src,
        target_language := some tgt,
        texts := some (.list items) } = true)
    (hnb : ∀ it ∈ items, isBlank (textOf it) = false)
    (htr : ∀ s, isBlank s = false → tr s = .ok (tr' s) ∧ tr' s ≠ "") :
    ∃ res, LambdaFunction.process_translation tr
        { request_id := some rid, source_language := some src,
          target_language := some tgt,
          texts := some (.list items) } = .ok res ∧
      res.translations.length = items.length ∧
      res.translations.map (fun e => e.original_text) =
        items.map textOf ∧
      (∀ e ∈ res.translations, e.translated_text ≠ "") ∧
      res.translation_metadata.total_characters =
        (items.map (fun it => (textOf it).length)).sum := by
  refine ⟨_, process_translation_eq_expected tr tr' rid src tgt items
    (fun it _ hb => (htr (textOf it) hb).1), ?_, ?_, ?_, ?_⟩
  · exact expectedEntries_length tr' 0 items
  · exact expectedEntries_map_original tr' 0 items
  · intro e he
    exact expectedEntries_translated_ne tr' items hnb
      (fun it hit => (htr (textOf it) (hnb it hit)).2) 0 e he
  · exact charSum_all_nonblank items hnb

/-- Witness for C2 at a concrete two-item request. -/
theorem claim_C2_witness :
    LambdaFunction.validate_translation_request
      { request_id := some "r1", source_language := some "en",
        target_language := some "es",
        texts := some (.list [.strItem "Hello",
                              .objItem (some 7) "World"]) } = true ∧
    (∀ it ∈ ([.strItem "Hello", .objItem (some 7) "World"] :
        List TextItem), isBlank (textOf it) = false) ∧
    ∃ res, LambdaFunction.process_translation (fun _ => .ok "X")
        { request_id := some "r1", source_language := some "en",
          target_language := some "es",
          texts := some (.list [.strItem "Hello",
                                .objItem (some 7) "World"]) } =
        .ok res ∧
      res.translations.length = 2 ∧
      res.translations.map (fun e => e.original_text) =
        ["Hello", "World"] ∧
      (∀ e ∈ res.translations, e.translated_text ≠ "") ∧
      res.translation_metadata.total_characters = 10 :=
  ⟨rfl, by decide,
   claim_C2 (fun _ => .ok "X") (fun _ => "X") "r1" "en" "es"
     [.strItem "Hello", .objItem (some 7) "World"] rfl (by decide)
     (fun s _ => ⟨rfl, show "X" ≠ "" by decide⟩)⟩

/-- C3: on both paths a blank text item yields an entry with empty
translated_text and character_count zero, and the adapter is never
consulted on blank texts: the outcome of either path is unchanged by
replacing the adapter with any other adapter that agrees on non-blank
texts. -/
theorem claim_C3 :
    (∀ (tr : String → Except String String) (rid src tgt : String)
       (items : List TextItem) (res : TranslationResult),
      LambdaFunction.process_translation tr
          { request_id := some rid, source_language := some src,
            target_language := some tgt,
            texts := some (.list items) } = .ok res →
      ∀ (k : Nat) (it : TextItem), items[k]? = some it →
        isBlank (textOf it) = true →
        ∃ e, res.translations[k]? = some e ∧
          e.original_text = textOf it ∧ e.translated_text = "" ∧
          e.character_count = 0) ∧
    (∀ (tr : String → Except String String) (texts : List String)
       (src tgt : String) (res : TranslationResult),
      PythonTranslator.translate_direct tr texts src tgt = .ok res →
      ∀ (k : Nat) (t : String), texts[k]? = some t → isBlank t = true →
        ∃ e, res.translations[k]? = some e ∧
          e.original_text = t ∧ e.translated_text = "" ∧
          e.character_count = 0) ∧
    (∀ tr₁ tr₂ : String → Except String String,
      (∀ s, isBlank s = false → tr₁ s = tr₂ s) →
      ∀ req, LambdaFunction.process_translation tr₁ req =
        LambdaFunction.process_translation tr₂ req) ∧
    (∀ tr₁ tr₂ : String → Except String String,
      (∀ s, isBlank s = false → tr₁ s = tr₂ s) →
      ∀ (texts : List String) (src tgt : String),
        PythonTranslator.translate_direct tr₁ texts src tgt =
          PythonTranslator.translate_direct tr₂ texts src tgt) := by
  refine ⟨?_, ?_, ?_, ?_⟩
  · intro tr rid src tgt items res hok k it hk hb
    obtain ⟨tr', -, rfl⟩ :=
      process_translation_ok_shape tr rid src tgt items res hok
    refine ⟨expectedEntry tr' k it, ?_, ?_, ?_, ?_⟩
    · show (expectedEntries tr' 0 items)[k]? = _
      rw [expectedEntries_getElem?, hk]
      simp
    · unfold expectedEntry; split <;> rfl
    · simp [expectedEntry, hb]
    · simp [expectedEntry, hb]
  · intro tr texts src tgt res hok k t hk hb
    obtain ⟨tr', -, rfl⟩ :=
      translate_direct_ok_shape tr texts src tgt res hok
    have hk2 : (texts.map TextItem.strItem)[k]? =
        some (.strItem t) := by
      rw [List.getElem?_map, hk]
      rfl
    refine ⟨expectedEntry tr' k (.strItem t), ?_, ?_, ?_, ?_⟩
    · show (expectedEntries tr' 0 (texts.map TextItem.strItem))[k]? = _
      rw [expectedEntries_getElem?, hk2]
      simp
    · simp [expectedEntry, textOf, hb]
    · simp [expectedEntry, textOf, hb]
    · simp [expectedEntry, textOf, hb]
  · intro tr₁ tr₂ hag req
    rw [LambdaFunction.process_translation,
      LambdaFunction.process_translation]
    obtain ⟨rid, sl, tl, tx⟩ := req
    rcases sl with _ | sl <;> rcases tl with _ | tl <;>
      rcases tx with _ | tf <;> try rfl
    cases tf with
    | notAList => rfl
    | list items =>
      dsimp only
      rw [processLoop_congr tr₁ tr₂ hag items [] 0]
  · intro tr₁ tr₂ hag texts src tgt
    rw [PythonTranslator.translate_direct,
      PythonTranslator.translate_direct]
    have e1 := translateDirectLoop_eq_processLoop tr₁ texts [] 0
    have e2 := translateDirectLoop_eq_processLoop tr₂ texts [] 0
    simp only [List.length_nil] at e1 e2
    rw [e1, e2, processLoop_congr tr₁ tr₂ hag]

/-- Witness for C3 at a concrete run with a blank middle item. -/
theorem claim_C3_witness :
    LambdaFunction.process_translation (fun _ => .ok "X")
        { request_id := some "r1", source_language := some "en",
          target_language := some "es",
          texts := some (.list [.strItem "Hello", .strItem "   ",
                                .strItem "World"]) } =
      .ok { translation_metadata :=
              { source_language := "en", target_language := "es",
                total_texts := 3, total_characters := 10,
                processing_status := "completed", method := none },
            translations :=
              [{ id := 0, original_text := "Hello",
                 translated_text := "X", character_count := 5 },
               { id := 1, original_text := "   ",
                 translated_text := "", character_count := 0 },
               { id := 2, original_text := "World",
                 translated_text := "X", character_count := 5 }],
            original_request :=
              some { request_id := some "r1",
                     source_language := some "en",
                     target_language := some "es",
                     texts := some (.list [.strItem "Hello",
                                           .strItem "   ",
                                           .strItem "World"]) } } ∧
    isBlank (textOf (.strItem "   ")) = true ∧
    ∃ e,
      ([{ id := 0, original_text := "Hello", translated_text := "X",
          character_count := 5 },
        { id := 1, original_text := "   ", translated_text := "",
          character_count := 0 },
        { id := 2, original_text := "World", translated_text := "X",
          character_count := 5 }] : List TranslationEntry)[1]? = some e ∧
      e.original_text = textOf (.strItem "   ") ∧
      e.translated_text = "" ∧ e.character_count = 0 :=
  ⟨rfl, by decide,
   claim_C3.1 (fun _ => .ok "X") "r1" "en" "es"
     [.strItem "Hello", .strItem "   ", .strItem "World"] _ rfl
     1 (.strItem "   ") rfl (by decide)⟩

/-- C8: the Request Encoder emits structured pairs whose id is the item's
0-based position, and the ingestion translation step assigns any item
lacking an own id the id equal to its 0-based position. -/
theorem claim_C8 :
    (∀ (texts : List String) (src tgt rid : String),
      ∃ items,
        (PythonTranslator.create_translation_request texts src tgt
            rid).texts = some (.list items) ∧
        items.length = texts.length ∧
        ∀ (k : Nat) (t : String), texts[k]? = some t →
          items[k]? = some (.objItem (some k) t)) ∧
    (∀ (tr : String → Except String String) (rid src tgt : String)
       (items : List TextItem) (res : TranslationResult),
      LambdaFunction.process_translation tr
          { request_id := some rid, source_language := some src,
            target_language := some tgt,
            texts := some (.list items) } = .ok res →
      ∀ (k : Nat) (it : TextItem), items[k]? = some it →
        hasOwnId it = false →
        ∃ e, res.translations[k]? = some e ∧ e.id = k) := by
  refine ⟨?_, ?_⟩
  · intro texts src tgt rid
    refine ⟨PythonTranslator.structuredTexts 0 texts, rfl,
      structuredTexts_length 0 texts, ?_⟩
    intro k t hk
    rw [structuredTexts_getElem?, hk]
    simp
  · intro tr rid src tgt items res hok k it hk hown
    obtain ⟨tr', -, rfl⟩ :=
      process_translation_ok_shape tr rid src tgt items res hok
    refine ⟨expectedEntry tr' k it, ?_, ?_⟩
    · show (expectedEntries tr' 0 items)[k]? = _
      rw [expectedEntries_getElem?, hk]
      simp
    · rw [expectedEntry_id, idOf_eq_of_not_own it k hown]

/-- Witness for C8: the encoder on a two-string list, and a bare-string
item processed at position 0. -/
theorem claim_C8_witness :
    (∃ items,
      (PythonTranslator.create_translation_request ["Hi", "Yo"] "en"
          "fr" "r2").texts = some (.list items) ∧
      items.length = 2 ∧
      ∀ (k : Nat) (t : String),
        (["Hi", "Yo"] : List String)[k]? = some t →
        items[k]? = some (.objItem (some k) t)) ∧
    ∃ e,
      ({ translation_metadata :=
           { source_language := "en", target_language := "fr",
             total_texts := 1, total_characters := 2,
             processing_status := "completed", method := none },
         translations :=
           [{ id := 0, original_text := "Yo", translated_text := "Z",
              character_count := 2 }],
         original_request :=
           some { request_id := some "r2",
                  source_language := some "en",
                  target_language := some "fr",
                  texts := some (.list [.strItem "Yo"]) } } :
        TranslationResult).translations[0]? = some e ∧ e.id = 0 :=
  ⟨claim_C8.1 ["Hi", "Yo"] "en" "fr" "r2",
   claim_C8.2 (fun _ => .ok "Z") "r2" "en" "fr" [.strItem "Yo"] _ rfl
     0 (.strItem "Yo") rfl rfl⟩

/-- C9: on the direct path an adapter failure on any item aborts the whole
call and propagates that very error, whatever items follow; and any
successful result carries the direct method tag. -/
theorem claim_C9 :
    (∀ (tr : String → Except String String) (src tgt : String)
       (pre : List String) (t : String) (post : List String)
       (e : String),
      (∀ s ∈ pre, isBlank s = true ∨ ∃ u, tr s = .ok u) →
      isBlank t = false → tr t = .error e →
      PythonTranslator.translate_direct tr (pre ++ t :: post) src tgt =
        .error e) ∧
    (∀ (tr : String → Except String String) (texts : List String)
       (src tgt : String) (res : TranslationResult),
      PythonTranslator.translate_direct tr texts src tgt = .ok res →
      res.translation_metadata.method = some "direct") ∧
    (∀ (tr : String → Except String String) (tr' : String → String)
       (texts : List String) (src tgt : String),
      (∀ s, isBlank s = false → tr s = .ok (tr' s)) →
      ∃ res, PythonTranslator.translate_direct tr texts src tgt =
          .ok res ∧
        res.translation_metadata.method = some "direct") := by
  refine ⟨?_, ?_, ?_⟩
  · intro tr src tgt pre t post e hpre hb htr
    rw [PythonTranslator.translate_direct]
    have e1 := translateDirectLoop_eq_processLoop tr
      (pre ++ t :: post) [] 0
    simp only [List.length_nil] at e1
    rw [e1, List.map_append, List.map_cons,
      processLoop_abort tr e (pre.map TextItem.strItem) (.strItem t)
        (post.map TextItem.strItem) [] 0
        (by
          intro p hp
          obtain ⟨s, hs, rfl⟩ := List.mem_map.mp hp
          simpa [textOf] using hpre s hs)
        (by simpa [textOf] using hb)
        (by simpa [textOf] using htr)]
  · intro tr texts src tgt res hok
    obtain ⟨tr', -, rfl⟩ :=
      translate_direct_ok_shape tr texts src tgt res hok
    rfl
  · intro tr tr' texts src tgt htr
    exact ⟨_, translate_direct_eq_expected tr tr' texts src tgt
      (fun t _ hb => htr t hb), rfl⟩

/-- Witness for C9: a failing adapter call aborts a concrete direct call,
and a successful concrete direct call is tagged direct. -/
theorem claim_C9_witness :
    isBlank "BOOM" = false ∧
    PythonTranslator.translate_direct
        (fun s => if s = "BOOM" then .error "ServiceUnavailable"
                  else .ok s)
        ([" "] ++ "BOOM" :: ["later"]) "en" "es" =
      .error "ServiceUnavailable" ∧
    ∃ res, PythonTranslator.translate_direct (fun _ => .ok "Q")
        ["hey"] "en" "es" = .ok res ∧
      res.translation_metadata.method = some "direct" :=
  ⟨by decide,
   claim_C9.1 _ "en" "es" [" "] "BOOM" ["later"] "ServiceUnavailable"
     (by
       intro s hs
       rw [List.mem_singleton] at hs
       subst hs
       exact Or.inl (by decide))
     (by decide) rfl,
   claim_C9.2.2 _ (fun _ => "Q") ["hey"] "en" "es" (fun _ _ => rfl)⟩

/-- C10: validation accepts any request whose texts field is a non-empty
list whatever the shape of its items, and an item that is neither a
string nor a mapping with a text key is processed as its string
representation: translated by the adapter and counted in
total_characters, never rejected or skipped. -/
theorem claim_C10 :
    (∀ (rid src tgt : String) (items : List TextItem), items ≠ [] →
      LambdaFunction.validate_translation_request
        { request_id := some rid, source_language := some src,
          target_language := some tgt,
          texts := some (.list items) } = true) ∧
    (∀ (tr : String → Except String String) (tr' : String → String)
       (rid src tgt : String) (items : List TextItem),
      (∀ s, isBlank s = false → tr s = .ok (tr' s)) →
      ∀ (k : Nat) (s : String), items[k]? = some (.otherItem s) →
        isBlank s = false →
        ∃ res, LambdaFunction.process_translation tr
            { request_id := some rid, source_language := some src,
              target_language := some tgt,
              texts := some (.list items) } = .ok res ∧
          res.translations[k]? = some
            { id := k, original_text := s, translated_text := tr' s,
              character_count := s.length } ∧
          res.translation_metadata.total_characters =
            charSum items) := by
  refine ⟨?_, ?_⟩
  · intro rid src tgt items hne
    cases items with
    | nil => exact absurd rfl hne
    | cons a l => rfl
  · intro tr tr' rid src tgt items htr k s hk hb
    refine ⟨_, process_translation_eq_expected tr tr' rid src tgt items
      (fun it _ hbi => htr (textOf it) hbi), ?_, rfl⟩
    show (expectedEntries tr' 0 items)[k]? = _
    rw [expectedEntries_getElem?, hk]
    simp [expectedEntry, textOf, idOf, hb]

/-- Witness for C10: a one-item list of arbitrary shape passes validation,
and a coerced non-string item is translated and counted. -/
theorem claim_C10_witness :
    LambdaFunction.validate_translation_request
      { request_id := some "r3", source_language := some "en",
        target_language := some "de",
        texts := some (.list [.otherItem "42"]) } = true ∧
    isBlank "42" = false ∧
    ∃ res, LambdaFunction.process_translation (fun _ => .ok "W")
        { request_id := some "r3", source_language := some "en",
          target_language := some "de",
          texts := some (.list [.strItem "a", .otherItem "42"]) } =
        .ok res ∧
      res.translations[1]? = some
        { id := 1, original_text := "42", translated_text := "W",
          character_count := 2 } ∧
      res.translation_metadata.total_characters =
        charSum [.strItem "a", .otherItem "42"] :=
  ⟨claim_C10.1 "r3" "en" "de" [.otherItem "42"] (by decide),
   by decide,
   claim_C10.2 (fun _ => .ok "W") (fun _ => "W") "r3" "en" "de"
     [.strItem "a", .otherItem "42"] (fun _ _ => rfl) 1 "42" rfl
     (by decide)⟩

/-- C7: when no object matching the polled key stem is ever present in the
response store, wait_for_translation_result terminates and returns the
timeout indication none (rather than raising); the loop is a pure reader
of the store and performs no writes by construction. -/
theorem claim_C7 {α : Type} (listing : Nat → List (String × Nat))
    (fetch : String → α) (request_id : String)
    (timeout poll_interval : Nat) (hp : 0 < poll_interval)
    (hnone : ∀ (t : Nat), ∀ kv ∈ listing t,
      (PythonTranslator.resultKeyStart request_id).data.isPrefixOf
        kv.1.data = false) :
    PythonTranslator.wait_for_translation_result listing fetch
      request_id timeout poll_interval hp = none := by
  have key : ∀ (n t : Nat), timeout - t ≤ n →
      PythonTranslator.waitLoop listing fetch request_id timeout
        poll_interval hp t = none := by
    intro n
    induction n with
    | zero =>
      intro t ht
      rw [PythonTranslator.waitLoop, dif_neg (by omega)]
    | succ n ih =>
      intro t ht
      rw [PythonTranslator.waitLoop]
      by_cases hlt : t < timeout
      · rw [dif_pos hlt]
        have hfilter : (listing t).filter
            (fun kv => (PythonTranslator.resultKeyStart
              request_id).data.isPrefixOf kv.1.data) = [] := by
          refine List.filter_eq_nil_iff.mpr ?_
          intro kv hkv
          simp [hnone t kv hkv]
        rw [hfilter]
        exact ih (t + poll_interval) (by omega)
      · rw [dif_neg hlt]
  exact key timeout 0 (by omega)

/-- Witness for C7: polling a store that only ever holds an unrelated key
times out with none. -/
theorem claim_C7_witness :
    (0 : Nat) < 1 ∧
    (∀ (t : Nat), ∀ kv ∈ (fun _ : Nat =>
        [("unrelated_key.json", 0)]) t,
      (PythonTranslator.resultKeyStart "abc").data.isPrefixOf
        kv.1.data = false) ∧
    PythonTranslator.wait_for_translation_result
      (fun _ => [("unrelated_key.json", 0)]) (fun _ => (0 : Nat)) "abc"
      3 1 Nat.one_pos = none :=
  ⟨Nat.one_pos,
   by
     intro t kv hkv
     rw [List.mem_singleton] at hkv
     subst hkv
     decide,
   claim_C7 (fun _ => [("unrelated_key.json", 0)]) (fun _ => (0 : Nat))
     "abc" 3 1 Nat.one_pos
     (by
       intro t kv hkv
       rw [List.mem_singleton] at hkv
       subst hkv
       decide)⟩

theorem rfindChar_eq_neg_one_or_nonneg (cs : List Char) (c : Char) :
    rfindChar cs c = -1 ∨ 0 ≤ rfindChar cs c := by
  induction cs with
  | nil => exact Or.inl rfl
  | cons ch rest ih =>
    rw [rfindChar]
    by_cases h : 0 ≤ rfindChar rest c
    · rw [if_pos h]
      right
      omega
    · rw [if_neg h]
      by_cases h2 : ch = c
      · rw [if_pos h2]
        right
        omega
      · rw [if_neg h2]
        exact Or.inl rfl

theorem rfindChar_not_mem (cs : List Char) (c : Char) (h : c ∉ cs) :
    rfindChar cs c = -1 := by
  induction cs with
  | nil => rfl
  | cons ch rest ih =>
    rw [rfindChar]
    have h1 : c ∉ rest := fun hc => h (List.mem_cons_of_mem _ hc)
    have h2 : ¬(ch = c) := fun hc => h (hc ▸ List.mem_cons_self ch rest)
    rw [ih h1, if_neg (by decide : ¬((0 : Int) ≤ -1)), if_neg h2]

theorem rfindChar_append (xs ys : List Char) (c : Char) :
    rfindChar (xs ++ ys) c =
      if 0 ≤ rfindChar ys c then (xs.length : Int) + rfindChar ys c
      else rfindChar xs c := by
  induction xs with
  | nil =>
    rw [List.nil_append]
    by_cases h : 0 ≤ rfindChar ys c
    · rw [if_pos h]
      simp
    · rw [if_neg h]
      rcases rfindChar_eq_neg_one_or_nonneg ys c with h2 | h2
      · rw [h2]
        rfl
      · exact absurd h2 h
  | cons ch rest ih =>
    rw [List.cons_append, rfindChar]
    rw [ih]
    by_cases h : 0 ≤ rfindChar ys c
    · simp only [if_pos h]
      rw [if_pos (show (0 : Int) ≤ (rest.length : Int) +
        rfindChar ys c by omega)]
      simp only [List.length_cons]
      push_cast
      omega
    · simp only [if_neg h]
      conv_rhs => rw [rfindChar]

theorem isPrefixOf_append_self (l t : List Char) :
    l.isPrefixOf (l ++ t) = true := by
  induction l with
  | nil => simp [List.isPrefixOf]
  | cons a as ih => simp [List.isPrefixOf, ih]

/-- Root computed by splitext for a submit key whose request id contains
no path separator: exactly the `.json` extension is stripped. -/
theorem splitextRoot_submitKey (request_id : String)
    (hsep : '/' ∉ request_id.data) :
    splitextRoot (PythonTranslator.submitKey request_id) =
      String.mk ("translation_request_".data ++ request_id.data) := by
  have hdata : (PythonTranslator.submitKey request_id).data =
      ("translation_request_".data ++ request_id.data) ++
        ".json".data := by
    simp [PythonTranslator.submitKey, String.data_append,
      List.append_assoc]
  rw [splitextRoot]
  rw [hdata]
  have hd : rfindChar (("translation_request_".data ++
      request_id.data) ++ ".json".data) '.' =
      (("translation_request_".data ++ request_id.data).length :
        Int) := by
    rw [rfindChar_append,
      if_pos (by decide : (0 : Int) ≤ rfindChar ".json".data '.'),
      show rfindChar ".json".data '.' = 0 from by decide]
    omega
  have hs : rfindChar (("translation_request_".data ++
      request_id.data) ++ ".json".data) '/' = -1 := by
    rw [rfindChar_append,
      if_neg (by decide : ¬((0 : Int) ≤ rfindChar ".json".data '/')),
      rfindChar_append, rfindChar_not_mem _ _ hsep,
      if_neg (by decide : ¬((0 : Int) ≤ (-1 : Int)))]
    decide
  rw [hd, hs]
  rw [if_pos ?hcond]
  case hcond =>
    refine ⟨by omega, ?_⟩
    rw [hasNonDot]
    have h0 : ((-1 : Int) + 1).toNat = 0 := by decide
    rw [h0]
    rw [Int.toNat_natCast]
    rw [List.drop_zero, Nat.sub_zero, List.take_left]
    refine List.any_eq_true.mpr ⟨'t', ?_, by decide⟩
    exact List.mem_append_left _ (by decide)
  rw [Int.toNat_natCast, List.take_left]

/-- C1 (amended): for every request id that contains no path separator
and every timestamp, the output key the ingestion handler derives from
the submitted key begins with the key stem the polling client lists
for. -/
theorem claim_C1 (request_id ts : String)
    (hsep : '/' ∉ request_id.data) :
    (PythonTranslator.resultKeyStart request_id).data.isPrefixOf
      (LambdaFunction.generate_output_key ts
        (PythonTranslator.submitKey request_id)).data = true := by
  have hout : (LambdaFunction.generate_output_key ts
      (PythonTranslator.submitKey request_id)).data =
      (("translation_request_".data ++ request_id.data) ++
        "_translated".data) ++
        (['_'] ++ (ts.data ++ ".json".data)) := by
    rw [LambdaFunction.generate_output_key,
      splitextRoot_submitKey request_id hsep]
    have h1 : ("_translated_" : String).data =
        "_translated".data ++ ['_'] := by decide
    simp [String.data_append, h1, List.append_assoc]
  have hpre : (PythonTranslator.resultKeyStart request_id).data =
      ("translation_request_".data ++ request_id.data) ++
        "_translated".data := by
    simp [PythonTranslator.resultKeyStart, String.data_append,
      List.append_assoc]
  rw [hout, hpre, isPrefixOf_append_self]

/-- C1 counterexample: for the request id `a/..` (a legal opaque string by
the spec), splitext refuses to strip the extension because the basename
part before the last dot consists only of dots, so the derived output key
does not begin with the polled key stem. -/
theorem claim_C1_cex :
    (PythonTranslator.resultKeyStart "a/..").data.isPrefixOf
      (LambdaFunction.generate_output_key "20250101_000000"
        (PythonTranslator.submitKey "a/..")).data = false := by
  decide

/-- Witness for C1 at a concrete slash-free request id and timestamp. -/
theorem claim_C1_witness :
    ('/' ∉ ("abc123" : String).data) ∧
    (PythonTranslator.resultKeyStart "abc123").data.isPrefixOf
      (LambdaFunction.generate_output_key "20250101_000000"
        (PythonTranslator.submitKey "abc123")).data = true :=
  ⟨by decide, claim_C1 "abc123" "20250101_000000" (by decide)⟩
